import Mathlib

/-!
Verification of the in-memory timing-run data model of myWatchTracker.py.

The embedding mirrors the source faithfully:
* numpy float64 arrays (`_time`, `_offset`, `_atomic_clock_error`,
  `_ios_clock_offset`) are modelled as `List ℚ` (exact arithmetic stands in
  for IEEE floats; all claims are about the algebraic structure, not rounding);
* `_unix_time` is loaded with `int(row[3])`, so it is an int64 numpy array and
  is modelled as `List ℤ`; numpy refuses in-place float addition on it
  (same-kind casting) and truncates toward zero on item assignment, both of
  which the embedding reproduces;
* `_original_data` stores *references* to the live numpy arrays, not deep
  copies.  In-place numpy mutations (`+=`, `arr[i] = v`) therefore also change
  the snapshot, while rebinding operations (`np.delete`, `np.insert`,
  assignment of a fresh array) detach the live field from the snapshot.  The
  embedding carries the snapshot plus one aliasing flag per array; an in-place
  operation updates the snapshot exactly when the flag is set, and a rebinding
  operation clears the flag.
* Python argument values (the methods accept arbitrary objects and validate
  with `try: float(x)` / `try: int(x)`) are modelled by `PyVal`.  String
  constructors model non-numeric-literal strings (no claim involves a numeric
  string literal, and for the shift methods even numeric strings raise at the
  numpy add step, which the embedding captures separately).
-/

/-- A Python argument value as passed to the public methods of `TimingRun`. -/
inductive PyVal where
  | int (n : ℤ)
  | float (q : ℚ)
  | str (s : String)
  | none
deriving Repr, DecidableEq

/-- Python `int()` truncates toward zero. -/
def pyTrunc (q : ℚ) : ℤ := if 0 ≤ q then ⌊q⌋ else ⌈q⌉

/-- Models `float(x)`: succeeds on ints and floats, raises (None) on
non-numeric strings and on `None`. -/
def pyFloat? : PyVal → Option ℚ
  | PyVal.int n => Option.some (n : ℚ)
  | PyVal.float q => Option.some q
  | PyVal.str _ => Option.none
  | PyVal.none => Option.none

/-- Models `int(x)`: ints pass through, floats truncate toward zero,
strings and None raise (None). -/
def pyInt? : PyVal → Option ℤ
  | PyVal.int n => Option.some n
  | PyVal.float q => Option.some (pyTrunc q)
  | PyVal.str _ => Option.none
  | PyVal.none => Option.none

/-- Models whether numpy accepts `x` as a numeric scalar operand of an
in-place float-array ufunc (`arr += x`): only ints and floats; any string
(numeric literal or not) or None raises TypeError. -/
def npNum? : PyVal → Option ℚ
  | PyVal.int n => Option.some (n : ℚ)
  | PyVal.float q => Option.some q
  | PyVal.str _ => Option.none
  | PyVal.none => Option.none

/-- The six per-sample parallel arrays of a timing run
(`_time`, `_offset`, `_comment`, `_unix_time`, `_atomic_clock_error`,
`_ios_clock_offset`). -/
structure RunData where
  time : List ℚ
  offset : List ℚ
  comment : List String
  unix_time : List ℤ
  atomic_clock_error : List ℚ
  ios_clock_offset : List ℚ
deriving Repr, DecidableEq

/-- The mutable state of a `TimingRun` object: the live arrays, metadata,
cursor (`_point_index`), the two shift accumulators, the `_original_data`
snapshot, and one aliasing flag per array recording whether the snapshot
entry is still the same numpy object as the live field (true right after
load, cleared by rebinding operations, restored by `Reset`). -/
structure TimingRun where
  data : RunData
  watch : String
  watch_index : ℤ
  file : String
  path : String
  header : List String
  point_index : ℕ
  offset_shifted : ℚ
  time_shifted : ℤ
  original : RunData
  origWatch : String
  origWatchIndex : ℤ
  origFile : String
  origPath : String
  origHeader : List String
  aliasTime : Bool
  aliasOffset : Bool
  aliasComment : Bool
  aliasUnix : Bool
  aliasAce : Bool
  aliasIco : Bool
deriving Repr, DecidableEq

/-- State of a `TimingRun` right after `_loadFile` and the construction of
`_original_data`: the snapshot holds references to (aliases of) the live
arrays, both accumulators are zero and the cursor is zero. -/
def mkLoaded (d : RunData) (w : String) (hdr : List String) : TimingRun :=
  { data := d, watch := w, watch_index := 0, file := "f.csv", path := "p",
    header := hdr, point_index := 0, offset_shifted := 0, time_shifted := 0,
    original := d, origWatch := w, origWatchIndex := 0, origFile := "f.csv",
    origPath := "p", origHeader := hdr,
    aliasTime := true, aliasOffset := true, aliasComment := true,
    aliasUnix := true, aliasAce := true, aliasIco := true }

/-- In-place map over the offset array (`self._offset += v` and friends):
also rewrites the snapshot entry when it still aliases the live array. -/
def mapOffsetInPlace (s : TimingRun) (f : ℚ → ℚ) : TimingRun :=
  { s with
    data := { s.data with offset := s.data.offset.map f },
    original := if s.aliasOffset then
        { s.original with offset := s.original.offset.map f }
      else s.original }

/-- In-place map over the time array. -/
def mapTimeInPlace (s : TimingRun) (f : ℚ → ℚ) : TimingRun :=
  { s with
    data := { s.data with time := s.data.time.map f },
    original := if s.aliasTime then
        { s.original with time := s.original.time.map f }
      else s.original }

/-- In-place map over the (integer) unix-time array. -/
def mapUnixInPlace (s : TimingRun) (f : ℤ → ℤ) : TimingRun :=
  { s with
    data := { s.data with unix_time := s.data.unix_time.map f },
    original := if s.aliasUnix then
        { s.original with unix_time := s.original.unix_time.map f }
      else s.original }

/-- `TimingRun.ShiftOffset(value)`: the source runs `try: float(value)
except: print(...)` with no `return` in the except branch, so control always
reaches `self._offset += value; self._offset_shifted += value`.  A numeric
value shifts the offsets (in place, so an aliased snapshot shifts too) and
accumulates; any other value makes the numpy in-place add raise an uncaught
TypeError before anything is mutated.  The second component of the result is
the uncaught exception, if one escapes. -/
def ShiftOffset (s : TimingRun) (value : PyVal) : TimingRun × Option String :=
  match npNum? value with
  | Option.some q =>
      ({ mapOffsetInPlace s (· + q) with offset_shifted := s.offset_shifted + q },
       Option.none)
  | Option.none => (s, Option.some "TypeError")

/-- `TimingRun.ShiftTime(value)`: same missing `return` as `ShiftOffset`.
`self._time += value` succeeds for any numeric value, but
`self._unix_time += value*60*60*24` targets the int64 unix-time array, so a
float addend violates the same-kind casting rule and raises after `_time`
was already mutated (partial mutation); an int addend succeeds throughout;
a non-numeric value raises already at `self._time += value`. -/
def ShiftTime (s : TimingRun) (value : PyVal) : TimingRun × Option String :=
  match value with
  | PyVal.int n =>
      ({ mapUnixInPlace (mapTimeInPlace s (· + (n : ℚ))) (· + n * 86400) with
          time_shifted := s.time_shifted + n },
       Option.none)
  | PyVal.float q => (mapTimeInPlace s (· + q), Option.some "UFuncTypeError")
  | _ => (s, Option.some "TypeError")

/-- `TimingRun.ShiftOffsetReset`: subtracts the accumulator from every
offset (in place) and zeroes it. -/
def ShiftOffsetReset (s : TimingRun) : TimingRun :=
  { mapOffsetInPlace s (· - s.offset_shifted) with offset_shifted := 0 }

/-- `TimingRun.ShiftTimeReset`: subtracts the accumulator from the time
axis and the unix-time axis (in place) and zeroes it. -/
def ShiftTimeReset (s : TimingRun) : TimingRun :=
  { mapUnixInPlace (mapTimeInPlace s (· - (s.time_shifted : ℚ)))
      (· - s.time_shifted * 86400) with time_shifted := 0 }

/-- `TimingRun.Reset`: reassigns every live field from `_original_data` (so
the live arrays alias the snapshot again) and zeroes `_offset_shifted`.
The source does NOT zero `_time_shifted`. -/
def Reset (s : TimingRun) : TimingRun :=
  { s with
    watch := s.origWatch, watch_index := s.origWatchIndex,
    file := s.origFile, path := s.origPath, header := s.origHeader,
    data := s.original,
    aliasTime := true, aliasOffset := true, aliasComment := true,
    aliasUnix := true, aliasAce := true, aliasIco := true,
    offset_shifted := 0 }

/-- A small freshly loaded 2-sample run used as a concrete input. -/
def demoRun : TimingRun :=
  mkLoaded
    { time := [0, 1], offset := [0, 0], comment := ["", ""],
      unix_time := [0, 86400],
      atomic_clock_error := [0, 0], ios_clock_offset := [0, 0] }
    "w" ["w", "", "", "", ""]

/-- `TimingRun._calcRate`: one `(midpoint_time, rate)` pair per consecutive
sample pair.  A pure read-only derivation: the store is not an argument of
the result in any mutable sense and the function never writes a field. -/
def calcRate (s : TimingRun) : List (ℚ × ℚ) :=
  (List.range (s.data.offset.length - 1)).map (fun i =>
    ((s.data.time.getD (i + 1) 0 + s.data.time.getD i 0) / 2,
     (s.data.offset.getD (i + 1) 0 - s.data.offset.getD i 0) /
       (s.data.time.getD (i + 1) 0 - s.data.time.getD i 0)))

/-- The 3-sample run of the spec's rate example:
time = [0,1,2], offset = [0,2,3]. -/
def demoRate : TimingRun :=
  mkLoaded
    { time := [0, 1, 2], offset := [0, 2, 3], comment := ["", "", ""],
      unix_time := [0, 86400, 172800],
      atomic_clock_error := [0, 0, 0], ios_clock_offset := [0, 0, 0] }
    "w" ["w", "", "", "", ""]

/-- `np.delete` applied to all six arrays: fresh arrays, one element gone. -/
def eraseAll (d : RunData) (i : ℕ) : RunData :=
  { time := d.time.eraseIdx i, offset := d.offset.eraseIdx i,
    comment := d.comment.eraseIdx i, unix_time := d.unix_time.eraseIdx i,
    atomic_clock_error := d.atomic_clock_error.eraseIdx i,
    ios_clock_offset := d.ios_clock_offset.eraseIdx i }

/-- `TimingRun._deletePoint(index)`: `None` selects the cursor; a
single-sample store refuses; `int(index)` truncates floats toward zero and
raises (caught, reported as failure) on strings; out-of-range rejected;
otherwise the sample is removed from all six arrays (`np.delete` rebinds
them, detaching the snapshot aliases) and the cursor is clamped to the new
last index when the deleted index is not below the new length.  Returns the
source's boolean (True on deletion, False on refusal) with the state. -/
def deletePoint (s : TimingRun) (index : PyVal) : Bool × TimingRun :=
  let arg := match index with
    | PyVal.none => PyVal.int (s.point_index : ℤ)
    | v => v
  if s.data.time.length ≤ 1 then (false, s)
  else
    match pyInt? arg with
    | Option.none => (false, s)
    | Option.some i =>
        if i < 0 ∨ (s.data.time.length : ℤ) ≤ i then (false, s)
        else
          let d := eraseAll s.data i.toNat
          (true,
            { s with
              data := d,
              point_index := (if d.time.length ≤ i.toNat then d.time.length - 1
                else s.point_index),
              aliasTime := false, aliasOffset := false, aliasComment := false,
              aliasUnix := false, aliasAce := false, aliasIco := false })

/-- Minimum of a list of rationals (helper for `argmin`). -/
def minOf : List ℚ → ℚ
  | [] => 0
  | [x] => x
  | x :: y :: rest => min x (minOf (y :: rest))

/-- `np.argmin`: index of the first occurrence of the minimum. -/
def firstMinIdx : List ℚ → ℕ
  | [] => 0
  | [_] => 0
  | x :: y :: rest =>
      if x ≤ minOf (y :: rest) then 0 else firstMinIdx (y :: rest) + 1

/-- `TimingRun.InsertPoint(time, offset, comment)`: rejects (no mutation)
unless both time and offset convert with `float()`; empty comment becomes
"(inserted)"; the insertion index is `abs(time - self.time).argmin()`, the
index of the closest existing time value; all six arrays get a fresh
`np.insert` (snapshot aliases detach).  The source computes the new unix
time only AFTER `self._time` has been rebuilt, so it reads `self.time[0]`
from the post-insertion array, and `np.insert` casts the float result into
the int64 unix array, truncating toward zero. -/
def InsertPoint (s : TimingRun) (time offset : PyVal) (comment : String) :
    Option TimingRun :=
  match pyFloat? time, pyFloat? offset with
  | Option.some t, Option.some o =>
      let c := if comment = "" then "(inserted)" else comment
      let idx := firstMinIdx (s.data.time.map (fun x => |t - x|))
      let time2 := s.data.time.insertIdx idx t
      let u := pyTrunc ((s.data.unix_time.headD 0 : ℚ) + (t - time2.headD 0) * 86400)
      Option.some
        { s with
          data := { time := time2,
                    offset := s.data.offset.insertIdx idx o,
                    comment := s.data.comment.insertIdx idx c,
                    unix_time := s.data.unix_time.insertIdx idx u,
                    atomic_clock_error := s.data.atomic_clock_error.insertIdx idx 0,
                    ios_clock_offset := s.data.ios_clock_offset.insertIdx idx 0 },
          aliasTime := false, aliasOffset := false, aliasComment := false,
          aliasUnix := false, aliasAce := false, aliasIco := false }
  | _, _ => Option.none

/-- The `point_atomic_clock_error` setter: after the `float()` check the
source executes `self.point_atomic_clock_error[self._point_index] = value`.
`self.point_atomic_clock_error` is the property GETTER, which returns the
scalar `self._atomic_clock_error[self._point_index]`, so the item assignment
targets a numpy scalar and raises TypeError; the backing array is never
written.  A non-convertible value is caught and reported (no raise). -/
def set_point_atomic_clock_error (s : TimingRun) (value : PyVal) :
    TimingRun × Option String :=
  match pyFloat? value with
  | Option.none => (s, Option.none)
  | Option.some _ => (s, Option.some "TypeError")

/-- The `point_ios_clock_offset` setter: same scalar-item-assignment slip as
`set_point_atomic_clock_error` (`self.point_ios_clock_offset[...] = value`). -/
def set_point_ios_clock_offset (s : TimingRun) (value : PyVal) :
    TimingRun × Option String :=
  match pyFloat? value with
  | Option.none => (s, Option.none)
  | Option.some _ => (s, Option.some "TypeError")

/-- A loaded 2-sample run for the deletion claims. -/
def demoDel : TimingRun :=
  mkLoaded
    { time := [0, 1], offset := [5, 6], comment := ["a", "b"],
      unix_time := [0, 86400],
      atomic_clock_error := [0, 0], ios_clock_offset := [0, 0] }
    "w" ["w", "", "", "", ""]

/-- A loaded 2-sample run for the insertion claims. -/
def demoIns : TimingRun :=
  mkLoaded
    { time := [0, 1], offset := [0, 0], comment := ["", ""],
      unix_time := [100, 86500],
      atomic_clock_error := [0, 0], ios_clock_offset := [0, 0] }
    "w" ["w", "", "", "", ""]

/-- The store produced by inserting (time = 5/7, offset = 1) into
`demoIns`. -/
def rIns : TimingRun :=
  (InsertPoint demoIns (PyVal.float (5/7)) (PyVal.float 1) "").getD demoIns

/-- The deep copy of `timing_runs[0]` that `concatTimingRuns` starts from:
cursor and both accumulators reset (the snapshot dict is emptied and rebuilt
at the end, so its intermediate value is irrelevant). -/
def concatInit (r0 : TimingRun) : TimingRun :=
  { r0 with point_index := 0, offset_shifted := 0, time_shifted := 0 }

/-- One iteration of the `concatTimingRuns` loop over `timing_runs[1:]`:
append the next run's arrays (dropping `n1` leading samples when
`skip_first`), with time and unix time offset by the current end values and
offsets shifted by `-(obj.offset[0] - acc.offset[-1])` when
`connect_offset`. -/
def concatStep (connect_offset : Bool) (n1 : ℕ) (acc obj : TimingRun) :
    TimingRun :=
  let delta := if connect_offset
    then obj.data.offset.headD 0 - acc.data.offset.getLastD 0 else 0
  { acc with
    data := {
      time := acc.data.time
        ++ (obj.data.time.drop n1).map (· + acc.data.time.getLastD 0),
      offset := acc.data.offset ++ (obj.data.offset.drop n1).map (· - delta),
      comment := acc.data.comment ++ obj.data.comment.drop n1,
      unix_time := acc.data.unix_time
        ++ (obj.data.unix_time.drop n1).map (· + acc.data.unix_time.getLastD 0),
      atomic_clock_error := acc.data.atomic_clock_error
        ++ obj.data.atomic_clock_error.drop n1,
      ios_clock_offset := acc.data.ios_clock_offset
        ++ obj.data.ios_clock_offset.drop n1 } }

/-- The tail of `concatTimingRuns`: placeholder metadata (the merged run no
longer corresponds to one source file) and a rebuilt `_original_data` that
references the merged arrays (hence aliased). -/
def concatFinalize (m : TimingRun) : TimingRun :=
  let hdr := ["|watch|", "|watch comment|", "|file comment|", "|?|",
    m.header.getD 4 ""]
  { m with
    watch := "|watch|", watch_index := -1, file := "|file|", header := hdr,
    original := m.data,
    origWatch := "|watch|", origWatchIndex := -1, origFile := "|file|",
    origPath := m.path, origHeader := hdr,
    aliasTime := true, aliasOffset := true, aliasComment := true,
    aliasUnix := true, aliasAce := true, aliasIco := true }

/-- `concatTimingRuns(timing_runs, connect_offset, skip_first)`: requires at
least two runs (reports failure otherwise), folds `concatStep` over the
tail starting from a copy of the head, then replaces the metadata. -/
def concatTimingRuns (timing_runs : List TimingRun)
    (connect_offset skip_first : Bool) : Option TimingRun :=
  if 1 < timing_runs.length then
    match timing_runs with
    | [] => Option.none
    | r0 :: rest =>
        Option.some (concatFinalize
          (rest.foldl (concatStep connect_offset (if skip_first then 1 else 0))
            (concatInit r0)))
  else Option.none

/-- Run A of the spec's concatenation example: ends at offset 5. -/
def demoA : TimingRun :=
  mkLoaded
    { time := [0, 1, 2], offset := [3, 4, 5], comment := ["", "", ""],
      unix_time := [0, 86400, 172800],
      atomic_clock_error := [0, 0, 0], ios_clock_offset := [0, 0, 0] }
    "a" ["a", "", "", "", ""]

/-- Run B of the spec's concatenation example: starts at offset 1. -/
def demoB : TimingRun :=
  mkLoaded
    { time := [0, 1, 2], offset := [1, 2, 3], comment := ["", "", ""],
      unix_time := [0, 86400, 172800],
      atomic_clock_error := [0, 0, 0], ios_clock_offset := [0, 0, 0] }
    "b" ["b", "", "", "", ""]

/-- `np.linspace(tstart, tstop, m)` evaluated at position j. -/
def lingrid (t0 tl : ℚ) (m : ℕ) (j : ℕ) : ℚ :=
  t0 + j * (tl - t0) / ((m : ℚ) - 1)

/-- The uniform grid `new_time` built by `linspaceTime`:
`len(time) * n` points from `time[0]` to `time[-1]`. -/
def linGrid (s : TimingRun) (n : ℕ) : List ℚ :=
  (List.range (s.data.time.length * n)).map
    (lingrid (s.data.time.headD 0) (s.data.time.getLastD 0)
      (s.data.time.length * n))

/-- For each original sample, the index of the nearest grid point
(`abs(new_time - t).argmin()`). -/
def mappedIndices (s : TimingRun) (n : ℕ) : List ℕ :=
  s.data.time.map (fun t => firstMinIdx ((linGrid s n).map (fun g => |g - t|)))

/-- The anchor positions of `linspaceTime` (`indices` in the source): the
grid slots that received an original offset, in increasing order. -/
def anchorIndices (s : TimingRun) (n : ℕ) : List ℕ :=
  (List.range (s.data.time.length * n)).filter
    (fun j => (mappedIndices s n).contains j)

/-- The second coarseness check of `linspaceTime`: every two consecutive
anchor indices must leave at least one empty grid slot between them. -/
def gapsOK (l : List ℕ) : Bool :=
  (l.zip l.tail).all (fun p => 1 < p.2 - p.1)

/-- Outcome of `linspaceTime`.  The source signals both failures by printing
a message and returning an unmodified deep copy of the input, so a failure
leaves the store unchanged from the caller's perspective; the embedding
separates the outcomes. -/
inductive LinspaceResult where
  | badArg
  | tooCoarse
  | ok (run : TimingRun)
deriving Repr, DecidableEq

/-- The per-sample arrays of a successful resampling, if any. -/
def linspaceStore : LinspaceResult → Option RunData
  | LinspaceResult.ok run => Option.some run.data
  | _ => Option.none

/-- `linspaceTime(timing_run, n)`: resample onto a uniform grid of
`len(time) * n` points.  Fails on a non-positive n; fails "too coarse" when
two original samples map to the same nearest grid index, or when two
consecutive anchor slots are adjacent.  On success the source assigns only
`_time` and `_offset` (the new comments go to a misspelled attribute
`_comments`, and the unix/error arrays are an unfinished TODO), so all
other arrays keep their old values and lengths.  Unfilled interpolation
slots are NaN in the source; the embedding stores them as `Option.none` and
defaults them to 0, which no claim observes (with at least two distinct
anchors every slot is filled). -/
def linspaceTime (timing_run : TimingRun) (n : ℕ) : LinspaceResult :=
  if n = 0 then LinspaceResult.badArg
  else if (mappedIndices timing_run n).Nodup then
    if gapsOK (anchorIndices timing_run n) then
      let m := timing_run.data.time.length * n
      let grid := linGrid timing_run n
      let anchored : List (Option ℚ) :=
        ((mappedIndices timing_run n).zip timing_run.data.offset).foldl
          (fun acc p => acc.set p.1 (Option.some p.2))
          (List.replicate m Option.none)
      let dt := grid.getD 1 0 - grid.getD 0 0
      let idxs := anchorIndices timing_run n
      let filled :=
        (List.range (idxs.length - 1)).foldl (fun acc i =>
          let i1 := idxs.getD i 0
          let i2 := idxs.getD (i + 1) 0
          let o1 := (acc.getD i1 Option.none).getD 0
          let o2 := (acc.getD i2 Option.none).getD 0
          let k := (o2 - o1) / (grid.getD i2 0 - grid.getD i1 0)
          (List.range (i2 - i1)).foldl
            (fun a ii => a.set (i1 + ii) (Option.some (o1 + k * ii * dt)))
            acc)
          anchored
      LinspaceResult.ok
        { timing_run with
          data := { timing_run.data with
                    time := grid,
                    offset := filled.map (fun o => o.getD 0) },
          aliasTime := false, aliasOffset := false }
    else LinspaceResult.tooCoarse
  else LinspaceResult.tooCoarse

/-- A 4-sample run whose samples sit exactly on the n = 1 grid: the mapping
is injective but every pair of anchors is adjacent. -/
def demo4 : TimingRun :=
  mkLoaded
    { time := [0, 1, 2, 3], offset := [0, 1, 2, 3],
      comment := ["", "", "", ""],
      unix_time := [0, 86400, 172800, 259200],
      atomic_clock_error := [0, 0, 0, 0], ios_clock_offset := [0, 0, 0, 0] }
    "w" ["w", "", "", "", ""]

/-- A 3-sample run with uneven spacing: at n = 1 the first two samples map
to the same grid index. -/
def demoDup : TimingRun :=
  mkLoaded
    { time := [0, 1/4, 3], offset := [0, 1, 2], comment := ["", "", ""],
      unix_time := [0, 21600, 259200],
      atomic_clock_error := [0, 0, 0], ios_clock_offset := [0, 0, 0] }
    "w" ["w", "", "", "", ""]

/-- Claim C4: for every store, `_calcRate` returns `length - 1` pairs, the
i-th being `((time[i] + time[i+1]) / 2, (offset[i+1] - offset[i]) /
(time[i+1] - time[i]))`, without mutating the store (the embedding is a pure
function of the store); on the 3-sample run with time = [0,1,2] and
offset = [0,2,3] it yields [(0.5, 2.0), (1.5, 1.0)]. -/
theorem calcRate_spec (s : TimingRun) (i : ℕ)
    (h : i + 1 < s.data.offset.length) :
    (calcRate s).length = s.data.offset.length - 1
    ∧ (calcRate s).getD i (0, 0) =
        ((s.data.time.getD (i + 1) 0 + s.data.time.getD i 0) / 2,
         (s.data.offset.getD (i + 1) 0 - s.data.offset.getD i 0) /
           (s.data.time.getD (i + 1) 0 - s.data.time.getD i 0))
    ∧ calcRate demoRate = [(1/2, 2), (3/2, 1)] := by
  refine ⟨by simp [calcRate], ?_,
    by norm_num [calcRate, demoRate, mkLoaded, List.range_succ]⟩
  have hi : i < s.data.offset.length - 1 := by omega
  have hlen : i < (calcRate s).length := by simp [calcRate]; omega
  rw [List.getD_eq_getElem _ _ hlen]
  simp [calcRate, hi]

/-- Witness for C4 at the concrete 3-sample store, index 0. -/
theorem calcRate_spec_witness :
    0 + 1 < demoRate.data.offset.length
    ∧ ((calcRate demoRate).length = demoRate.data.offset.length - 1
      ∧ (calcRate demoRate).getD 0 (0, 0) =
          ((demoRate.data.time.getD 1 0 + demoRate.data.time.getD 0 0) / 2,
           (demoRate.data.offset.getD 1 0 - demoRate.data.offset.getD 0 0) /
             (demoRate.data.time.getD 1 0 - demoRate.data.time.getD 0 0))
      ∧ calcRate demoRate = [(1/2, 2), (3/2, 1)]) :=
  ⟨by decide, calcRate_spec demoRate 0 (by decide)⟩

/-- Shifting every element by a, then by b, then subtracting a + b restores
the list. -/
theorem map_shift_shift_unshift (l : List ℚ) (a b c : ℚ) (h : c = a + b) :
    ((l.map (· + a)).map (· + b)).map (· - c) = l := by
  subst h
  induction l with
  | nil => rfl
  | cons x xs ih =>
      simp only [List.map_cons] at ih ⊢
      rw [ih]
      congr 1
      ring

/-- Claim C3: for any deltas d1, d2, `ShiftOffset(d1); ShiftOffset(d2);
ShiftOffsetReset()` restores the offset array exactly as if no shift had
occurred (the run starts with a zero accumulator, i.e. unshifted) and zeroes
`_offset_shifted`; the deltas compose additively in the accumulator, so the
reset is the exact inverse of the intervening shifts. -/
theorem shiftOffsetReset_exact_inverse (s : TimingRun) (d1 d2 : ℚ)
    (h : s.offset_shifted = 0) :
    (ShiftOffsetReset
        (ShiftOffset (ShiftOffset s (PyVal.float d1)).1 (PyVal.float d2)).1).data.offset
      = s.data.offset
    ∧ (ShiftOffsetReset
        (ShiftOffset (ShiftOffset s (PyVal.float d1)).1 (PyVal.float d2)).1).offset_shifted
      = 0 := by
  constructor
  · simp only [ShiftOffset, npNum?, ShiftOffsetReset, mapOffsetInPlace]
    exact map_shift_shift_unshift _ d1 d2 _ (by rw [h]; ring)
  · simp [ShiftOffsetReset]

/-- Witness for C3 at a concrete store and deltas 2 and 3. -/
theorem shiftOffsetReset_exact_inverse_witness :
    demoRun.offset_shifted = 0
    ∧ ((ShiftOffsetReset
          (ShiftOffset (ShiftOffset demoRun (PyVal.float 2)).1 (PyVal.float 3)).1).data.offset
        = demoRun.data.offset
      ∧ (ShiftOffsetReset
          (ShiftOffset (ShiftOffset demoRun (PyVal.float 2)).1 (PyVal.float 3)).1).offset_shifted
        = 0) :=
  ⟨rfl, shiftOffsetReset_exact_inverse demoRun 2 3 rfl⟩

/-- Claim C8 (code bug): the claim says every public operation rejects a
malformed argument with no mutation and never raises an uncaught fault, and
in particular that `ShiftOffset` and `ShiftTime` with a non-numeric value
leave state unchanged and do not raise.  The source prints the validation
message but is missing a `return`, so `self._offset += value` /
`self._time += value` still executes and numpy raises an uncaught TypeError.
Evaluation at the failing input `value = "abc"`. -/
theorem shift_nonNumeric_raises :
    (ShiftOffset demoRun (PyVal.str "abc")).2 = Option.some "TypeError"
    ∧ (ShiftOffset demoRun (PyVal.str "abc")).1 = demoRun
    ∧ (ShiftTime demoRun (PyVal.str "abc")).2 = Option.some "TypeError" :=
  ⟨rfl, rfl, rfl⟩

/-- Claim C1 (code bug): the claim says `Reset` restores all arrays to their
as-loaded values from an immutable deep-copied snapshot and zeroes both
shift accumulators.  In the source `_original_data` holds references to the
live numpy arrays, so the in-place `ShiftOffset` corrupts the snapshot and
`Reset` hands back the shifted values; and `Reset` zeroes only
`_offset_shifted`, never `_time_shifted`.  Evaluation at the failing input:
a run loaded with offset = [0, 0], then `ShiftOffset(1); Reset()` leaves
offset = [1, 1], and `ShiftTime(1); Reset()` leaves the time accumulator
at 1. -/
theorem reset_does_not_restore :
    (Reset (ShiftOffset demoRun (PyVal.float 1)).1).data.offset = [1, 1]
    ∧ (Reset (ShiftOffset demoRun (PyVal.float 1)).1).data.offset
        ≠ demoRun.data.offset
    ∧ demoRun.data.offset = [0, 0]
    ∧ (Reset (ShiftTime demoRun (PyVal.int 1)).1).time_shifted = 1 := by
  refine ⟨?_, ?_, rfl, rfl⟩
  · norm_num [Reset, ShiftOffset, npNum?, mapOffsetInPlace, demoRun, mkLoaded]
  · norm_num [Reset, ShiftOffset, npNum?, mapOffsetInPlace, demoRun, mkLoaded]

/-- Claim C10 (code bug): the claim says the `point_atomic_clock_error` and
`point_ios_clock_offset` setters write the type-checked value into
`error_a[cursor]` / `error_b[cursor]`.  The source indexes into the scalar
returned by the property getter instead of the backing array, so with a
valid store, cursor 0 and the numeric value 1.0 both setters raise TypeError
and write nothing. -/
theorem errorSetters_always_raise :
    set_point_atomic_clock_error demoRun (PyVal.float 1)
      = (demoRun, Option.some "TypeError")
    ∧ set_point_ios_clock_offset demoRun (PyVal.float 1)
      = (demoRun, Option.some "TypeError") :=
  ⟨rfl, rfl⟩

/-- Counterexample to claim C5 as stated: a non-integer index is NOT
rejected.  `int(1.5)` truncates to 1, so `_deletePoint(1.5)` on a 2-sample
store reports success and mutates the store (deletes index 1). -/
theorem deletePoint_float_counterexample :
    (deletePoint demoDel (PyVal.float (3/2))).1 = true
    ∧ (deletePoint demoDel (PyVal.float (3/2))).2.data.time = [0] := by
  constructor <;>
    norm_num [deletePoint, pyInt?, pyTrunc, eraseAll, demoDel, mkLoaded,
      List.eraseIdx]

/-- Claim C5 as amended: `_deletePoint` removes the sample at the index from
all six sequences atomically; it refuses (no-op, reports failure) whenever
the length is 1; indices that fail integer conversion (e.g. strings) are
rejected with no mutation, but float indices are truncated toward zero and
then treated as that integer index; out-of-range integer indices are
rejected with no mutation; and when the deleted index is the last valid
index the cursor is clamped to the new last index. -/
theorem deletePoint_spec (s : TimingRun) (q : ℚ) (msg : String) (i : ℤ) :
    (s.data.time.length ≤ 1 → ∀ v : PyVal, deletePoint s v = (false, s))
    ∧ deletePoint s (PyVal.str msg) = (false, s)
    ∧ deletePoint s (PyVal.float q) = deletePoint s (PyVal.int (pyTrunc q))
    ∧ (i < 0 ∨ (s.data.time.length : ℤ) ≤ i →
        deletePoint s (PyVal.int i) = (false, s))
    ∧ (1 < s.data.time.length → 0 ≤ i → i < (s.data.time.length : ℤ) →
        deletePoint s (PyVal.int i) =
          (true,
            { s with
              data := eraseAll s.data i.toNat,
              point_index :=
                (if (eraseAll s.data i.toNat).time.length ≤ i.toNat
                  then (eraseAll s.data i.toNat).time.length - 1
                  else s.point_index),
              aliasTime := false, aliasOffset := false, aliasComment := false,
              aliasUnix := false, aliasAce := false, aliasIco := false })) := by
  refine ⟨?_, ?_, ?_, ?_, ?_⟩
  · intro h v
    cases v <;> simp [deletePoint, h]
  · by_cases hl : s.data.time.length ≤ 1
    · simp [deletePoint, hl]
    · simp [deletePoint, hl, pyInt?]
  · rfl
  · intro h
    by_cases hl : s.data.time.length ≤ 1
    · simp [deletePoint, hl]
    · simp only [deletePoint, pyInt?]
      rw [if_neg hl, if_pos h]
  · intro h1 h2 h3
    have hl : ¬ s.data.time.length ≤ 1 := by omega
    have hc : ¬ (i < 0 ∨ (s.data.time.length : ℤ) ≤ i) := by
      push_neg
      exact ⟨h2, h3⟩
    simp only [deletePoint, pyInt?]
    rw [if_neg hl, if_neg hc]

/-- Witness for the amended C5 at a 2-sample store: a string index is
rejected with no mutation, and deleting index 0 succeeds. -/
theorem deletePoint_spec_witness :
    deletePoint demoDel (PyVal.str "x") = (false, demoDel)
    ∧ (deletePoint demoDel (PyVal.int 0)).1 = true := by
  have h := deletePoint_spec demoDel 0 "x" 0
  refine ⟨h.2.1, ?_⟩
  rw [h.2.2.2.2 (by decide) (by decide) (by decide)]

/-- The first-minimum index of a nonempty list is a valid index. -/
theorem firstMinIdx_lt_length : ∀ (l : List ℚ), l ≠ [] → firstMinIdx l < l.length
  | [], h => absurd rfl h
  | [_], _ => by simp [firstMinIdx]
  | x :: y :: rest, _ => by
      simp only [firstMinIdx]
      split
      · simp
      · have := firstMinIdx_lt_length (y :: rest) (by simp)
        simp only [List.length_cons] at this ⊢
        omega

/-- Reading back the element just inserted at a valid position. -/
theorem getD_insertIdx_self {α : Type} (l : List α) (x d : α) (n : ℕ)
    (hn : n ≤ l.length) : (l.insertIdx n x).getD n d = x := by
  have hlen : n < (l.insertIdx n x).length := by
    rw [List.length_insertIdx _ _ hn]
    omega
  rw [List.getD_eq_getElem _ _ hlen]
  exact List.getElem_insertIdx_self l x n hn

/-- Inserting at a positive position keeps the head. -/
theorem headD_insertIdx_pos {α : Type} (l : List α) (x d : α) (n : ℕ)
    (hn : 0 < n) (hl : l ≠ []) : (l.insertIdx n x).headD d = l.headD d := by
  cases l with
  | nil => exact absurd rfl hl
  | cons y ys =>
      cases n with
      | zero => omega
      | succ m => simp [List.insertIdx_succ_cons]

/-- Counterexample to claim C9 as stated: the claimed timestamp formula
`device_timestamp[0] + (time - time[0]) * 86400` does not match the code.
Inserting time = -1 into the run with time = [0, 1], unix = [100, 86500]
lands at index 0, and the code then reads the POST-insertion `time[0]`
(the new point itself), storing 100 instead of the claimed
100 + (-1 - 0)*86400 = -86300; and inserting time = 5/7 (index 1) stores the
truncated integer 61814 while the claimed formula gives the non-integer
100 + (5/7)*86400 = 61814 + 2/7. -/
theorem insertPoint_timestamp_counterexample :
    (InsertPoint demoIns (PyVal.float (-1)) (PyVal.float 5) "").map
        (fun r => r.data.unix_time) = Option.some [100, 100, 86500]
    ∧ ¬ ((100 : ℚ) = 100 + ((-1) - 0) * 86400)
    ∧ (InsertPoint demoIns (PyVal.float (5/7)) (PyVal.float 5) "").map
        (fun r => r.data.unix_time) = Option.some [100, 61814, 86500]
    ∧ ¬ ((61814 : ℚ) = 100 + (5/7 - 0) * 86400) := by
  refine ⟨?_, by norm_num, ?_, by norm_num⟩ <;>
    norm_num [InsertPoint, pyFloat?, firstMinIdx, minOf, pyTrunc, demoIns,
      mkLoaded, List.insertIdx_zero, List.insertIdx_succ_cons,
      abs_of_nonneg, abs_of_nonpos]

/-- Claim C9 as amended: for every numeric time and offset, `InsertPoint`
inserts at the index of the closest existing time value (nearest-neighbor,
first occurrence, not the sorted-insert position), writes the time and
offset there, sets error_a = error_b = 0, and fails without inserting on
non-numeric time or offset; the new device timestamp is
`trunc(device_timestamp[0] + (time - time_after[0]) * 86400)` where
`time_after[0]` is the first element of the POST-insertion time array and
the truncation comes from the int64 unix array; whenever the insertion
index is nonzero (so the first element is unchanged) this is the truncation
of the claimed formula `device_timestamp[0] + (time - time[0]) * 86400`. -/
theorem insertPoint_spec (s r : TimingRun) (t o : ℚ) (c msg : String)
    (hne : s.data.time ≠ [])
    (hoff : s.data.offset.length = s.data.time.length)
    (huni : s.data.unix_time.length = s.data.time.length)
    (hace : s.data.atomic_clock_error.length = s.data.time.length)
    (hico : s.data.ios_clock_offset.length = s.data.time.length)
    (hr : InsertPoint s (PyVal.float t) (PyVal.float o) c = Option.some r) :
    InsertPoint s (PyVal.str msg) (PyVal.float o) c = Option.none
    ∧ InsertPoint s (PyVal.float t) (PyVal.str msg) c = Option.none
    ∧ r.data.time.getD (firstMinIdx (s.data.time.map (fun x => |t - x|))) 0 = t
    ∧ r.data.offset.getD (firstMinIdx (s.data.time.map (fun x => |t - x|))) 0 = o
    ∧ r.data.atomic_clock_error.getD
        (firstMinIdx (s.data.time.map (fun x => |t - x|))) 0 = 0
    ∧ r.data.ios_clock_offset.getD
        (firstMinIdx (s.data.time.map (fun x => |t - x|))) 0 = 0
    ∧ r.data.unix_time.getD (firstMinIdx (s.data.time.map (fun x => |t - x|))) 0
        = pyTrunc ((s.data.unix_time.headD 0 : ℚ)
            + (t - r.data.time.headD 0) * 86400)
    ∧ (0 < firstMinIdx (s.data.time.map (fun x => |t - x|)) →
        r.data.unix_time.getD (firstMinIdx (s.data.time.map (fun x => |t - x|))) 0
          = pyTrunc ((s.data.unix_time.headD 0 : ℚ)
              + (t - s.data.time.headD 0) * 86400)) := by
  have hidx : firstMinIdx (s.data.time.map (fun x => |t - x|))
      ≤ s.data.time.length := by
    have h1 := firstMinIdx_lt_length (s.data.time.map (fun x => |t - x|))
      (by simpa using hne)
    rw [List.length_map] at h1
    exact h1.le
  simp only [InsertPoint, pyFloat?, Option.some.injEq] at hr
  subst hr
  refine ⟨rfl, rfl, ?_, ?_, ?_, ?_, ?_, ?_⟩
  · exact getD_insertIdx_self _ _ _ _ hidx
  · exact getD_insertIdx_self _ _ _ _ (by rw [hoff]; exact hidx)
  · exact getD_insertIdx_self _ _ _ _ (by rw [hace]; exact hidx)
  · exact getD_insertIdx_self _ _ _ _ (by rw [hico]; exact hidx)
  · exact getD_insertIdx_self _ _ _ _ (by rw [huni]; exact hidx)
  · intro hpos
    rw [getD_insertIdx_self _ _ _ _ (by rw [huni]; exact hidx)]
    rw [headD_insertIdx_pos s.data.time t 0 _ hpos hne]

/-- Witness for the amended C9: inserting (time = 5/7, offset = 1) into the
2-sample run lands at index 1 and writes the time there; a string time is
rejected. -/
theorem insertPoint_spec_witness :
    InsertPoint demoIns (PyVal.str "zz") (PyVal.float 1) "" = Option.none
    ∧ rIns.data.time.getD
        (firstMinIdx (demoIns.data.time.map (fun x => |5/7 - x|))) 0 = 5/7 := by
  have h := insertPoint_spec demoIns rIns (5/7) 1 "" "zz" (by decide)
    (by decide) (by decide) (by decide) (by decide) rfl
  exact ⟨h.1, h.2.2.1⟩

/-- Claim C6: each concatenation step appends the next run's time values
offset by the running end-time of the result; with connect_offset the
appended offsets are shifted so that the seam sample equals the result's
previous last offset, and without it they are appended unshifted; the
two-run calls of `concatTimingRuns` reduce to one such step; and on the
concrete example where run A ends at offset 5 and run B starts at offset 1
the seam sample has offset 5 and time A.time[-1] = 2 with connect_offset,
and B's offsets stay [1, 2, 3] without it. -/
theorem concat_spec (a b acc obj : TimingRun) (hb : obj.data.offset ≠ []) :
    (concatStep true 0 acc obj).data.time
      = acc.data.time ++ obj.data.time.map (· + acc.data.time.getLastD 0)
    ∧ (concatStep true 0 acc obj).data.offset.getD acc.data.offset.length 0
      = acc.data.offset.getLastD 0
    ∧ (concatStep false 0 acc obj).data.offset
      = acc.data.offset ++ obj.data.offset
    ∧ concatTimingRuns [a, b] true false
      = Option.some (concatFinalize (concatStep true 0 (concatInit a) b))
    ∧ concatTimingRuns [a, b] false false
      = Option.some (concatFinalize (concatStep false 0 (concatInit a) b))
    ∧ (concatTimingRuns [demoA, demoB] true false).map
        (fun r => (r.data.offset.getD 3 0, r.data.time.getD 3 0))
      = Option.some (5, 2)
    ∧ (concatTimingRuns [demoA, demoB] false false).map
        (fun r => r.data.offset)
      = Option.some [3, 4, 5, 1, 2, 3] := by
  refine ⟨by simp [concatStep], ?_, by simp [concatStep], rfl, rfl, ?_, ?_⟩
  · simp only [concatStep, List.drop_zero]
    rw [List.getD_append_right _ _ _ _ le_rfl, Nat.sub_self]
    cases hob : obj.data.offset with
    | nil => exact absurd hob hb
    | cons x xs => simp [hob]
  · norm_num [concatTimingRuns, concatInit, concatFinalize, concatStep,
      demoA, demoB, mkLoaded]
  · norm_num [concatTimingRuns, concatInit, concatFinalize, concatStep,
      demoA, demoB, mkLoaded]

/-- Witness for C6 at the two concrete 3-sample runs. -/
theorem concat_spec_witness :
    demoB.data.offset ≠ []
    ∧ (concatStep true 0 demoA demoB).data.offset.getD
        demoA.data.offset.length 0 = demoA.data.offset.getLastD 0
    ∧ (concatTimingRuns [demoA, demoB] true false).map
        (fun r => (r.data.offset.getD 3 0, r.data.time.getD 3 0))
      = Option.some (5, 2) := by
  have h := concat_spec demoA demoB demoA demoB (by decide)
  exact ⟨by decide, h.2.1, h.2.2.2.2.2.1⟩

/-- Claim C7: `linspaceTime` fails with the "too coarse" outcome (no usable
output; the source returns the unmodified copy of the input) whenever two
different original samples map to the same nearest grid index, and whenever
two consecutive anchor indices are adjacent; in particular a 4-sample run
with distinct times and n = 1 fails (its four samples occupy four adjacent
grid slots, or collide), as does an unevenly spaced 3-sample run at n = 1
(two samples share a nearest grid index). -/
theorem linspace_too_coarse (s : TimingRun) (n : ℕ) (h0 : 0 < n) :
    (¬ (mappedIndices s n).Nodup → linspaceTime s n = LinspaceResult.tooCoarse)
    ∧ ((mappedIndices s n).Nodup → gapsOK (anchorIndices s n) = false →
        linspaceTime s n = LinspaceResult.tooCoarse)
    ∧ linspaceTime demo4 1 = LinspaceResult.tooCoarse
    ∧ linspaceTime demoDup 1 = LinspaceResult.tooCoarse := by
  refine ⟨?_, ?_, ?_, ?_⟩
  · intro hnd
    simp only [linspaceTime]
    rw [if_neg (by omega), if_neg hnd]
  · intro hnd hg
    simp only [linspaceTime]
    rw [if_neg (by omega), if_pos hnd, if_neg (by simp [hg])]
  · norm_num [linspaceTime, mappedIndices, anchorIndices, linGrid, lingrid,
      gapsOK, firstMinIdx, minOf, demo4, mkLoaded, List.range_succ,
      abs_of_nonneg, abs_of_nonpos]
  · norm_num [linspaceTime, mappedIndices, anchorIndices, linGrid, lingrid,
      gapsOK, firstMinIdx, minOf, demoDup, mkLoaded, List.range_succ,
      abs_of_nonneg, abs_of_nonpos]

/-- Witness for C7: the two general failure conditions applied at concrete
runs (an uneven 3-sample run whose first two samples collide on the grid,
and the on-grid 4-sample run whose anchors are adjacent). -/
theorem linspace_too_coarse_witness :
    linspaceTime demoDup 1 = LinspaceResult.tooCoarse
    ∧ linspaceTime demo4 1 = LinspaceResult.tooCoarse := by
  refine ⟨(linspace_too_coarse demoDup 1 (by decide)).1 ?_,
    (linspace_too_coarse demo4 1 (by decide)).2.1 ?_ ?_⟩
  · norm_num [mappedIndices, linGrid, lingrid, firstMinIdx, minOf, demoDup,
      mkLoaded, List.range_succ, abs_of_nonneg, abs_of_nonpos]
  · norm_num [mappedIndices, linGrid, lingrid, firstMinIdx, minOf, demo4,
      mkLoaded, List.range_succ, abs_of_nonneg, abs_of_nonpos]
  · norm_num [gapsOK, anchorIndices, mappedIndices, linGrid, lingrid,
      firstMinIdx, minOf, demo4, mkLoaded, List.range_succ,
      abs_of_nonneg, abs_of_nonpos]

/-- Folding a length-preserving step preserves the length. -/
theorem length_foldl_inv {β : Type} (F : List (Option ℚ) → β → List (Option ℚ))
    (hF : ∀ a x, (F a x).length = a.length) :
    ∀ (l : List β) (acc : List (Option ℚ)),
      (l.foldl F acc).length = acc.length := by
  intro l
  induction l with
  | nil => intro acc; rfl
  | cons x xs ih => intro acc; rw [List.foldl_cons, ih, hF]

/-- The n = 3 grid of the 2-sample run. -/
theorem linGrid_demoRun : linGrid demoRun 3 = [0, 1/5, 2/5, 3/5, 4/5, 1] := by
  norm_num [linGrid, lingrid, demoRun, mkLoaded, List.range_succ]

/-- The nearest-grid-index map of the 2-sample run on the n = 3 grid. -/
theorem mappedIndices_demoRun : mappedIndices demoRun 3 = [0, 5] := by
  have ht : demoRun.data.time = [0, 1] := rfl
  rw [mappedIndices, linGrid_demoRun, ht]
  norm_num [firstMinIdx, minOf, min_def, abs_of_nonneg, abs_of_nonpos]

/-- The anchor slots of the 2-sample run on the n = 3 grid. -/
theorem anchorIndices_demoRun : anchorIndices demoRun 3 = [0, 5] := by
  have ht : demoRun.data.time.length * 3 = 6 := rfl
  rw [anchorIndices, mappedIndices_demoRun, ht]
  decide

/-- Claim C2 (code bug): the claim says the six per-sample sequences have
identical length (at least 1) after every public operation, resampling
included.  The success path of `linspaceTime` rebuilds only `_time` and
`_offset` (the new comments are written to a misspelled attribute
`_comments` and the unix/error arrays are an unfinished TODO), so
resampling the 2-sample run with n = 3 returns a store whose time and
offset have length 6 while comment, unix time and both error arrays keep
length 2. -/
theorem linspace_breaks_length_invariant :
    (linspaceStore (linspaceTime demoRun 3)).map
        (fun d => (d.time.length, d.offset.length, d.comment.length,
          d.unix_time.length, d.atomic_clock_error.length,
          d.ios_clock_offset.length))
      = Option.some (6, 6, 2, 2, 2, 2) := by
  simp only [linspaceTime]
  rw [if_neg (by norm_num), if_pos (by rw [mappedIndices_demoRun]; decide),
    if_pos (by rw [anchorIndices_demoRun]; rfl)]
  simp only [linspaceStore, Option.map]
  refine congrArg _ ?_
  have hanch : (((mappedIndices demoRun 3).zip demoRun.data.offset).foldl
      (fun acc p => acc.set p.1 (Option.some p.2))
      (List.replicate (demoRun.data.time.length * 3) Option.none)).length
      = 6 := by
    rw [length_foldl_inv _ (fun a x => by simp)]
    rfl
  have hgrid : (linGrid demoRun 3).length = 6 := by
    rw [linGrid_demoRun]
    rfl
  refine Prod.ext hgrid (Prod.ext ?_ rfl)
  simp only [List.length_map]
  rw [length_foldl_inv _ (fun a x =>
    length_foldl_inv _ (fun a2 ii => by simp) _ a)]
  exact hanch
